import Mathlib

/-!
Verification development for the GPX route ingestion and enrichment pipeline
(`routes/utils.py`, `routes/tasks.py`, `routes/services.py`, `routes/models.py`).

Coordinates and elevations are modelled as rationals (every Python float is a
rational), while geometric results (distances, elevation sums) live in `ℝ`
because the Haversine formula involves trigonometric functions.
-/

open Real

/- ## GeoMath

Modelled from the spec: `calculate_distance_meters` is imported from
`routes.utils` by `routes/tasks.py`, the management commands and the tests,
but its body is not among the provided source files.  The spec describes it
as the great-circle distance via the Haversine formula with Earth radius
6371000 m.  We use the arcsine form of the Haversine formula; for
`a ∈ [0, 1]` it agrees with the `atan2 (sqrt a) (sqrt (1 - a))` form. -/
noncomputable def toRadians (x : ℚ) : ℝ :=
  (x : ℝ) * Real.pi / 180

noncomputable def haversineA (lat1 lon1 lat2 lon2 : ℚ) : ℝ :=
  Real.sin ((toRadians lat2 - toRadians lat1) / 2) ^ 2 +
    Real.cos (toRadians lat1) * Real.cos (toRadians lat2) *
      Real.sin ((toRadians lon2 - toRadians lon1) / 2) ^ 2

noncomputable def calculate_distance_meters (lat1 lon1 lat2 lon2 : ℚ) : ℝ :=
  2 * 6371000 * Real.arcsin (Real.sqrt (haversineA lat1 lon1 lat2 lon2))

lemma sin_half_sub_sq_comm (x y : ℝ) :
    Real.sin ((x - y) / 2) ^ 2 = Real.sin ((y - x) / 2) ^ 2 := by
  rw [show (x - y) / 2 = -((y - x) / 2) by ring, Real.sin_neg, neg_sq]

lemma haversineA_comm (lat1 lon1 lat2 lon2 : ℚ) :
    haversineA lat1 lon1 lat2 lon2 = haversineA lat2 lon2 lat1 lon1 := by
  unfold haversineA
  rw [sin_half_sub_sq_comm, sin_half_sub_sq_comm (toRadians lon2)]
  ring

lemma calculate_distance_meters_comm (lat1 lon1 lat2 lon2 : ℚ) :
    calculate_distance_meters lat1 lon1 lat2 lon2 =
      calculate_distance_meters lat2 lon2 lat1 lon1 := by
  unfold calculate_distance_meters
  rw [haversineA_comm]

lemma calculate_distance_meters_self (lat lon : ℚ) :
    calculate_distance_meters lat lon lat lon = 0 := by
  unfold calculate_distance_meters haversineA
  simp

/-- Claim C6: the great-circle distance function (Haversine formula with
Earth radius 6371000 m) is symmetric in its two coordinate-pair arguments
and is zero on the diagonal. -/
theorem distance_meters_symm_and_zero (lat1 lon1 lat2 lon2 : ℚ) :
    calculate_distance_meters lat1 lon1 lat2 lon2 =
        calculate_distance_meters lat2 lon2 lat1 lon1 ∧
      calculate_distance_meters lat1 lon1 lat1 lon1 = 0 :=
  ⟨calculate_distance_meters_comm lat1 lon1 lat2 lon2,
    calculate_distance_meters_self lat1 lon1⟩

/- ## Reference data: StartPoint (`routes/models.py`) -/

structure StartPoint where
  name : String
  latitude : ℚ
  longitude : ℚ
  description : String
deriving Repr, DecidableEq

/- ## StartPointMatcher

Modelled from the spec: `find_closest_start_point` is imported from
`routes.utils` by `routes/tasks.py` and the management commands, but its
body is not among the provided source files.  The spec: it scans all
candidates, computes the distance of each via GeoMath, retains the minimum,
and returns it only if that minimum is at most `max_distance_meters`, else
returns none.  The candidate set (in the code, all persisted `StartPoint`
rows) is passed explicitly here. -/
noncomputable def spDist (lat lon : ℚ) (sp : StartPoint) : ℝ :=
  calculate_distance_meters lat lon sp.latitude sp.longitude

noncomputable def find_closest_start_point (lat lon : ℚ)
    (candidates : List StartPoint) (max_distance_meters : ℝ) :
    Option StartPoint :=
  (candidates.argmin (spDist lat lon)).bind fun sp =>
    if spDist lat lon sp ≤ max_distance_meters then some sp else none

lemma find_closest_eq_some (lat lon : ℚ) (cs : List StartPoint) (maxd : ℝ)
    (sp : StartPoint)
    (h : find_closest_start_point lat lon cs maxd = some sp) :
    sp ∈ cs ∧ spDist lat lon sp ≤ maxd ∧
      ∀ q ∈ cs, spDist lat lon sp ≤ spDist lat lon q := by
  unfold find_closest_start_point at h
  rcases hm : cs.argmin (spDist lat lon) with _ | m
  · rw [hm] at h
    simp at h
  · rw [hm, Option.some_bind] at h
    by_cases hd : spDist lat lon m ≤ maxd
    · rw [if_pos hd] at h
      obtain rfl : m = sp := by simpa using h
      have hmem : m ∈ cs.argmin (spDist lat lon) := by
        rw [hm]
        rfl
      exact ⟨List.argmin_mem hmem, hd,
        fun q hq => List.le_of_mem_argmin hq hmem⟩
    · rw [if_neg hd] at h
      simp at h

lemma find_closest_eq_none_iff (lat lon : ℚ) (cs : List StartPoint)
    (maxd : ℝ) :
    find_closest_start_point lat lon cs maxd = none ↔
      ∀ q ∈ cs, maxd < spDist lat lon q := by
  unfold find_closest_start_point
  rcases hm : cs.argmin (spDist lat lon) with _ | m
  · have : cs = [] := List.argmin_eq_none.mp hm
    subst this
    simp
  · rw [Option.some_bind]
    have hmem : m ∈ cs.argmin (spDist lat lon) := by
      rw [hm]
      rfl
    have hmmem : m ∈ cs := List.argmin_mem hmem
    by_cases hd : spDist lat lon m ≤ maxd
    · rw [if_pos hd]
      simp only [reduceCtorEq, false_iff]
      push_neg
      exact ⟨m, hmmem, hd⟩
    · rw [if_neg hd]
      simp only [true_iff]
      intro q hq
      calc maxd < spDist lat lon m := not_le.mp hd
        _ ≤ spDist lat lon q := List.le_of_mem_argmin hq hmem

/- ## GPX document model

The post-XML-parse shape of a GPX document as exposed by the gpxpy library
to `parse_gpx` (`routes/utils.py`): tracks (with optional name and a list
of segments of points), routes (with optional name and points), and
waypoints.  Optional elements carry `Option`; Python truthiness on a
possibly-absent string (`if track.name:`) is true exactly for a present,
non-empty string. -/

structure TrkPt where
  latitude : ℚ
  longitude : ℚ
  elevation : Option ℚ
deriving Repr, DecidableEq

structure TrkSegment where
  points : List TrkPt
deriving Repr, DecidableEq

structure Track where
  name : Option String
  segments : List TrkSegment
deriving Repr, DecidableEq

structure GpxRoute where
  name : Option String
  points : List TrkPt
deriving Repr, DecidableEq

structure Waypoint where
  latitude : ℚ
  longitude : ℚ
deriving Repr, DecidableEq

structure Gpx where
  tracks : List Track
  routes : List GpxRoute
  waypoints : List Waypoint
deriving Repr, DecidableEq

/-- Python truthiness of a possibly-absent string. -/
def strTruthy (o : Option String) : Prop :=
  o.getD "" ≠ ""

instance (o : Option String) : Decidable (strTruthy o) := by
  unfold strTruthy
  infer_instance

/- Modelled from the spec: gpxpy's per-element 3D length and uphill gain
(`track.length_3d()`, `route.length_3d()`, `track.get_uphill_downhill()`,
`route.get_uphill_downhill()` in `routes/utils.py` lines 58-67 come from
the gpxpy library, whose source is not part of this repository).  Per the
spec: each element contributes its 3D path length; elements lacking
elevation or with fewer than 2 points contribute zero, and the uphill gain
sums only the positive elevation steps. -/

noncomputable def dist3d_m (p q : TrkPt) : ℝ :=
  Real.sqrt
    (calculate_distance_meters p.latitude p.longitude q.latitude q.longitude ^ 2 +
      ((q.elevation.getD 0 : ℚ) - (p.elevation.getD 0 : ℚ)) ^ 2)

def uphillStep (p q : TrkPt) : ℝ :=
  max ((q.elevation.getD 0 : ℚ) - (p.elevation.getD 0 : ℚ) : ℝ) 0

/-- Sum of `f` over consecutive pairs of a point list (zero when the list
has fewer than 2 points). -/
def pairSum (f : TrkPt → TrkPt → ℝ) : List TrkPt → ℝ
  | [] => 0
  | [_] => 0
  | p :: q :: rest => f p q + pairSum f (q :: rest)

/-- Does every point of the element carry elevation data? -/
def hasFullEle (pts : List TrkPt) : Bool :=
  pts.all fun p => p.elevation.isSome

noncomputable def length_3d_m (pts : List TrkPt) : ℝ :=
  if hasFullEle pts then pairSum dist3d_m pts else 0

noncomputable def uphill_m (pts : List TrkPt) : ℝ :=
  if hasFullEle pts then pairSum uphillStep pts else 0

noncomputable def track_length_3d (t : Track) : ℝ :=
  (t.segments.map fun seg => length_3d_m seg.points).sum

noncomputable def track_uphill (t : Track) : ℝ :=
  (t.segments.map fun seg => uphill_m seg.points).sum

noncomputable def route_length_3d (rt : GpxRoute) : ℝ :=
  length_3d_m rt.points

noncomputable def route_uphill (rt : GpxRoute) : ℝ :=
  uphill_m rt.points

/- ## GpxParser (`parse_gpx`, `routes/utils.py` lines 13-69) -/

structure ParsedRoute where
  name : String
  distance_km : ℝ
  elevation_gain : ℝ
  points : List (ℚ × ℚ)
  start_lat : Option ℚ
  start_lon : Option ℚ
  end_lat : Option ℚ
  end_lon : Option ℚ

/-- The name/point accumulator threaded through the track and route loops
of `parse_gpx`. -/
structure NameAndPoints where
  name : String
  points : List (ℚ × ℚ)

def trackStep (acc : NameAndPoints) (t : Track) : NameAndPoints :=
  { name := if acc.name = "" ∧ strTruthy t.name then t.name.getD "" else acc.name
    points := acc.points ++
      t.segments.flatMap fun seg =>
        seg.points.map fun p => (p.latitude, p.longitude) }

def routeStep (acc : NameAndPoints) (rt : GpxRoute) : NameAndPoints :=
  { name := if acc.name = "" ∧ strTruthy rt.name then rt.name.getD "" else acc.name
    points := acc.points ++ rt.points.map fun p => (p.latitude, p.longitude) }

noncomputable def parse_gpx (g : Gpx) : ParsedRoute :=
  -- track loop, then the route loop only if no track point was collected,
  -- then the waypoint loop only if there is still no point
  let afterTracks := g.tracks.foldl trackStep ⟨"", []⟩
  let afterRoutes :=
    if afterTracks.points = [] then g.routes.foldl routeStep afterTracks
    else afterTracks
  let pts :=
    if afterRoutes.points = [] then
      afterRoutes.points ++ g.waypoints.map fun w => (w.latitude, w.longitude)
    else afterRoutes.points
  -- distance and elevation accumulation over every track, then every route
  -- (`x if x else 0` reads the value through Python truthiness)
  let distT := g.tracks.foldl
    (fun d t => d + if track_length_3d t ≠ 0 then track_length_3d t / 1000 else 0) 0
  let dist := g.routes.foldl
    (fun d rt => d + if route_length_3d rt ≠ 0 then route_length_3d rt / 1000 else 0) distT
  let gainT := g.tracks.foldl
    (fun e t => e + if track_uphill t ≠ 0 then track_uphill t else 0) 0
  let gain := g.routes.foldl
    (fun e rt => e + if route_uphill rt ≠ 0 then route_uphill rt else 0) gainT
  { name := afterRoutes.name
    distance_km := dist
    elevation_gain := gain
    points := pts
    start_lat := (pts.head?.map Prod.fst)
    start_lon := (pts.head?.map Prod.snd)
    end_lat := (pts.getLast?.map Prod.fst)
    end_lon := (pts.getLast?.map Prod.snd) }

/-- All track points of the document, in document order (track loop of
`parse_gpx`). -/
def trackPts1 (t : Track) : List (ℚ × ℚ) :=
  t.segments.flatMap fun seg => seg.points.map fun p => (p.latitude, p.longitude)

def trackPoints (g : Gpx) : List (ℚ × ℚ) :=
  g.tracks.flatMap trackPts1

/-- All route points of the document, in document order (route loop of
`parse_gpx`). -/
def routePts1 (rt : GpxRoute) : List (ℚ × ℚ) :=
  rt.points.map fun p => (p.latitude, p.longitude)

def routePoints (g : Gpx) : List (ℚ × ℚ) :=
  g.routes.flatMap routePts1

def waypointPoints (g : Gpx) : List (ℚ × ℚ) :=
  g.waypoints.map fun w => (w.latitude, w.longitude)

lemma foldl_trackStep_points (ts : List Track) (acc : NameAndPoints) :
    (ts.foldl trackStep acc).points = acc.points ++ ts.flatMap trackPts1 := by
  induction ts generalizing acc with
  | nil => simp
  | cons t rest ih =>
      simp only [List.foldl_cons, List.flatMap_cons, ih, trackStep, trackPts1,
        List.append_assoc]

lemma foldl_routeStep_points (rts : List GpxRoute) (acc : NameAndPoints) :
    (rts.foldl routeStep acc).points = acc.points ++ rts.flatMap routePts1 := by
  induction rts generalizing acc with
  | nil => simp
  | cons rt rest ih =>
      simp only [List.foldl_cons, List.flatMap_cons, ih, routeStep, routePts1,
        List.append_assoc]

lemma parse_gpx_points (g : Gpx) :
    (parse_gpx g).points =
      if trackPoints g = [] then
        (if routePoints g = [] then waypointPoints g else routePoints g)
      else trackPoints g := by
  have ht : (g.tracks.foldl trackStep ⟨"", []⟩).points = trackPoints g := by
    rw [foldl_trackStep_points]
    rfl
  by_cases h1 : trackPoints g = []
  · by_cases h2 : routePoints g = [] <;>
    · simp only [parse_gpx, ht, h1, if_true, foldl_routeStep_points,
        List.nil_append, waypointPoints]
      simp only [routePoints] at h2
      simp [routePoints, h2]
  · simp only [parse_gpx, ht, if_neg h1]

/-- Claim C2: `parse_gpx` populates `points` from the first non-empty source
among tracks, routes, waypoints, in that priority order: if any track
contains points, all track points are collected in document order and
route/waypoint points are ignored; routes are consulted only when tracks
yield no points, and waypoints only when routes also yield none. -/
theorem parse_gpx_source_priority (g : Gpx) :
    (trackPoints g ≠ [] → (parse_gpx g).points = trackPoints g) ∧
      (trackPoints g = [] → routePoints g ≠ [] →
        (parse_gpx g).points = routePoints g) ∧
      (trackPoints g = [] → routePoints g = [] →
        (parse_gpx g).points = waypointPoints g) := by
  refine ⟨fun h1 => ?_, fun h1 h2 => ?_, fun h1 h2 => ?_⟩ <;>
    rw [parse_gpx_points]
  · simp [h1]
  · simp [h1, h2]
  · simp [h1, h2]

def witnessTrack : Track :=
  { name := some "Sample Track"
    segments := [⟨[⟨51, -1, none⟩, ⟨52, -2, none⟩]⟩] }

def witnessGpx : Gpx :=
  { tracks := [witnessTrack]
    routes := [{ name := some "Route Example", points := [⟨7, 8, none⟩] }]
    waypoints := [⟨9, 10⟩] }

theorem parse_gpx_source_priority_witness :
    (parse_gpx witnessGpx).points = [((51 : ℚ), (-1 : ℚ)), ((52 : ℚ), (-2 : ℚ))] := by
  have h := (parse_gpx_source_priority witnessGpx).1 (by decide)
  rw [h]
  rfl

lemma if_ne_zero_div_eq (x : ℝ) : (if x ≠ 0 then x / 1000 else 0) = x / 1000 := by
  split_ifs with h
  · rfl
  · rw [not_not.mp h, zero_div]

lemma if_ne_zero_eq (x : ℝ) : (if x ≠ 0 then x else 0) = x := by
  split_ifs with h
  · rfl
  · rw [not_not.mp h]

lemma foldl_add_map {α : Type} (f : α → ℝ) (l : List α) (init : ℝ) :
    l.foldl (fun d x => d + f x) init = init + (l.map f).sum := by
  induction l generalizing init with
  | nil => simp
  | cons x rest ih => simp [ih, add_assoc]

lemma pairSum_nonneg (f : TrkPt → TrkPt → ℝ) (hf : ∀ p q, 0 ≤ f p q) :
    ∀ pts, 0 ≤ pairSum f pts
  | [] => le_refl 0
  | [_] => le_refl 0
  | p :: q :: rest =>
      add_nonneg (hf p q) (pairSum_nonneg f hf (q :: rest))

lemma dist3d_m_nonneg (p q : TrkPt) : 0 ≤ dist3d_m p q :=
  Real.sqrt_nonneg _

lemma uphillStep_nonneg (p q : TrkPt) : 0 ≤ uphillStep p q :=
  le_max_right _ _

lemma length_3d_m_nonneg (pts : List TrkPt) : 0 ≤ length_3d_m pts := by
  unfold length_3d_m
  split_ifs
  · exact pairSum_nonneg _ dist3d_m_nonneg pts
  · exact le_refl 0

lemma uphill_m_nonneg (pts : List TrkPt) : 0 ≤ uphill_m pts := by
  unfold uphill_m
  split_ifs
  · exact pairSum_nonneg _ uphillStep_nonneg pts
  · exact le_refl 0

lemma track_length_3d_nonneg (t : Track) : 0 ≤ track_length_3d t :=
  List.sum_nonneg fun x hx => by
    obtain ⟨seg, _, rfl⟩ := List.mem_map.mp hx
    exact length_3d_m_nonneg _

lemma track_uphill_nonneg (t : Track) : 0 ≤ track_uphill t :=
  List.sum_nonneg fun x hx => by
    obtain ⟨seg, _, rfl⟩ := List.mem_map.mp hx
    exact uphill_m_nonneg _

lemma short_or_bare_contributes_zero (pts : List TrkPt)
    (h : hasFullEle pts = false ∨ pts.length < 2) :
    length_3d_m pts = 0 ∧ uphill_m pts = 0 := by
  rcases h with h | h
  · unfold length_3d_m uphill_m
    rw [h]
    simp
  · match pts, h with
    | [], _ => unfold length_3d_m uphill_m pairSum; simp
    | [p], _ => unfold length_3d_m uphill_m pairSum; simp

lemma parse_gpx_distance (g : Gpx) :
    (parse_gpx g).distance_km =
      (g.tracks.map fun t => track_length_3d t / 1000).sum +
        (g.routes.map fun rt => route_length_3d rt / 1000).sum := by
  simp only [parse_gpx]
  simp only [if_ne_zero_div_eq, foldl_add_map, zero_add]

lemma parse_gpx_gain (g : Gpx) :
    (parse_gpx g).elevation_gain =
      (g.tracks.map track_uphill).sum + (g.routes.map route_uphill).sum := by
  simp only [parse_gpx]
  simp only [if_ne_zero_eq, foldl_add_map, zero_add]

/-- Claim C3: the parsed `distance_km` is the sum over every track and every
route in the document (whichever source supplied the selected points) of
that element's 3D path length in kilometers, and `elevation_gain` is the
analogous sum of positive uphill components; elements lacking elevation or
with fewer than 2 points contribute zero, and both results are
non-negative. -/
theorem parse_gpx_metrics (g : Gpx) :
    (parse_gpx g).distance_km =
        (g.tracks.map fun t => track_length_3d t / 1000).sum +
          (g.routes.map fun rt => route_length_3d rt / 1000).sum ∧
      (parse_gpx g).elevation_gain =
        (g.tracks.map track_uphill).sum + (g.routes.map route_uphill).sum ∧
      0 ≤ (parse_gpx g).distance_km ∧
      0 ≤ (parse_gpx g).elevation_gain ∧
      ∀ pts : List TrkPt, hasFullEle pts = false ∨ pts.length < 2 →
        length_3d_m pts = 0 ∧ uphill_m pts = 0 := by
  refine ⟨parse_gpx_distance g, parse_gpx_gain g, ?_, ?_,
    fun pts h => short_or_bare_contributes_zero pts h⟩
  · rw [parse_gpx_distance g]
    have h1 : 0 ≤ (g.tracks.map fun t => track_length_3d t / 1000).sum :=
      List.sum_nonneg fun x hx => by
        obtain ⟨t, _, rfl⟩ := List.mem_map.mp hx
        exact div_nonneg (track_length_3d_nonneg t) (by norm_num)
    have h2 : 0 ≤ (g.routes.map fun rt => route_length_3d rt / 1000).sum :=
      List.sum_nonneg fun x hx => by
        obtain ⟨rt, _, rfl⟩ := List.mem_map.mp hx
        exact div_nonneg (length_3d_m_nonneg rt.points) (by norm_num)
    exact add_nonneg h1 h2
  · rw [parse_gpx_gain g]
    have h1 : 0 ≤ (g.tracks.map track_uphill).sum :=
      List.sum_nonneg fun x hx => by
        obtain ⟨t, _, rfl⟩ := List.mem_map.mp hx
        exact track_uphill_nonneg t
    have h2 : 0 ≤ (g.routes.map route_uphill).sum :=
      List.sum_nonneg fun x hx => by
        obtain ⟨rt, _, rfl⟩ := List.mem_map.mp hx
        exact uphill_m_nonneg rt.points
    exact add_nonneg h1 h2

theorem parse_gpx_metrics_witness :
    length_3d_m [] = 0 ∧ uphill_m [] = 0 :=
  (parse_gpx_metrics witnessGpx).2.2.2.2 [] (Or.inr (by decide))

/- ## Persisted Route record and pipeline environment

`Route` (`routes/models.py`) restricted to the fields that the enrichment
task reads or writes.  The thumbnail is kept as the stored bytes (the
hashed file name of `thumbnail_image.save` does not affect any claim).
The `Env` bundles the I/O collaborators used by `process_route_async`:
the persisted `StartPoint` rows consulted by `find_closest_start_point`,
the reverse geocoder result (`get_location_name`), and the renderer result
(`generate_static_map_image`). -/

structure RouteRec where
  name : String
  distance_km : ℝ
  elevation_gain : ℝ
  start_lat : Option ℚ
  start_lon : Option ℚ
  start_location : String
  route_coordinates : List (ℚ × ℚ)
  thumbnail_image : Option (List Nat)

structure Env where
  startPoints : List StartPoint
  geocode : ℚ → ℚ → String
  render : List (ℚ × ℚ) → Option (List Nat)

/- ## Enrichment stage (`process_route_async`, `routes/tasks.py` lines 10-55)

Step 1 runs under `if route.start_lat and route.start_lon and not
route.start_location:` — Python truthiness, so a missing (None) or zero
coordinate skips the step; the geocoder result is written only when
non-empty (`if location_name:`).  Step 2 runs under `if
route.route_coordinates and not route.thumbnail_image:` and writes the
thumbnail only when the renderer returned bytes. -/

noncomputable def enrichLocation (env : Env) (r : RouteRec) : RouteRec :=
  match r.start_lat, r.start_lon with
  | some la, some lo =>
      if la ≠ 0 ∧ lo ≠ 0 ∧ r.start_location = "" then
        match find_closest_start_point la lo env.startPoints 250 with
        | some sp => { r with start_location := sp.name }
        | none =>
            if env.geocode la lo ≠ "" then
              { r with start_location := env.geocode la lo }
            else r
      else r
  | _, _ => r

def enrichThumbnail (env : Env) (r : RouteRec) : RouteRec :=
  if r.route_coordinates ≠ [] ∧ r.thumbnail_image = none then
    match env.render r.route_coordinates with
    | some img => { r with thumbnail_image := some img }
    | none => r
  else r

noncomputable def process_route_async (env : Env) (r : RouteRec) : RouteRec :=
  enrichThumbnail env (enrichLocation env r)

lemma enrichLocation_thumbnail (env : Env) (r : RouteRec) :
    (enrichLocation env r).thumbnail_image = r.thumbnail_image := by
  unfold enrichLocation
  split
  · split_ifs <;> (try rfl) <;> (split <;> rfl)
  · rfl

lemma enrichLocation_coords (env : Env) (r : RouteRec) :
    (enrichLocation env r).route_coordinates = r.route_coordinates := by
  unfold enrichLocation
  split
  · split_ifs <;> (try rfl) <;> (split <;> rfl)
  · rfl

lemma enrichThumbnail_start_location (env : Env) (r : RouteRec) :
    (enrichThumbnail env r).start_location = r.start_location := by
  unfold enrichThumbnail
  split_ifs with h
  · rcases env.render r.route_coordinates with _ | img <;> rfl
  · rfl

lemma enrichLocation_skip (env : Env) (r : RouteRec)
    (h : r.start_location ≠ "") : enrichLocation env r = r := by
  unfold enrichLocation
  split
  · rw [if_neg]
    intro hc
    exact h hc.2.2
  · rfl

lemma enrichThumbnail_skip (env : Env) (r : RouteRec)
    (h : r.thumbnail_image ≠ none) : enrichThumbnail env r = r := by
  unfold enrichThumbnail
  rw [if_neg]
  intro hc
  exact h hc.2

lemma process_start_location_stable (env : Env) (r : RouteRec)
    (h : r.start_location ≠ "") :
    (process_route_async env r).start_location = r.start_location := by
  unfold process_route_async
  rw [enrichLocation_skip env r h, enrichThumbnail_start_location]

lemma process_thumbnail_stable (env : Env) (r : RouteRec)
    (h : r.thumbnail_image ≠ none) :
    (process_route_async env r).thumbnail_image = r.thumbnail_image := by
  unfold process_route_async
  rw [enrichThumbnail_skip env _ (by rw [enrichLocation_thumbnail]; exact h),
    enrichLocation_thumbnail]

/-- Claim C1: enrichment is idempotent on `start_location` and
`thumbnail_image`.  Once a run of `process_route_async` has left both
fields set, any later run (under any environment) leaves them exactly as
the first run left them; and enrichment never overwrites a non-empty
`start_location` or an existing thumbnail. -/
theorem process_route_async_idempotent :
    (∀ (env env2 : Env) (r : RouteRec),
        (process_route_async env r).start_location ≠ "" →
        (process_route_async env r).thumbnail_image ≠ none →
        (process_route_async env2 (process_route_async env r)).start_location =
            (process_route_async env r).start_location ∧
          (process_route_async env2 (process_route_async env r)).thumbnail_image =
            (process_route_async env r).thumbnail_image) ∧
      (∀ (env : Env) (r : RouteRec), r.start_location ≠ "" →
        (process_route_async env r).start_location = r.start_location) ∧
      (∀ (env : Env) (r : RouteRec), r.thumbnail_image ≠ none →
        (process_route_async env r).thumbnail_image = r.thumbnail_image) :=
  ⟨fun _ env2 _ h1 h2 =>
    ⟨process_start_location_stable env2 _ h1, process_thumbnail_stable env2 _ h2⟩,
    fun env r h => process_start_location_stable env r h,
    fun env r h => process_thumbnail_stable env r h⟩

def trivialEnv : Env :=
  { startPoints := []
    geocode := fun _ _ => ""
    render := fun _ => none }

def settledRoute : RouteRec :=
  { name := "Test Route"
    distance_km := 10
    elevation_gain := 0
    start_lat := none
    start_lon := none
    start_location := "Already Set Location"
    route_coordinates := []
    thumbnail_image := some [1, 2, 3] }

theorem process_route_async_idempotent_witness :
    (process_route_async trivialEnv settledRoute).start_location =
      "Already Set Location" :=
  process_route_async_idempotent.2.1 trivialEnv settledRoute (by
    intro h
    exact absurd h (by decide))

lemma process_location_eq_matched (env : Env) (r : RouteRec) (la lo : ℚ)
    (sp : StartPoint)
    (hla : r.start_lat = some la) (hlo : r.start_lon = some lo)
    (ha : la ≠ 0) (hb : lo ≠ 0) (hempty : r.start_location = "")
    (hsp : find_closest_start_point la lo env.startPoints 250 = some sp) :
    (process_route_async env r).start_location = sp.name := by
  unfold process_route_async
  rw [enrichThumbnail_start_location]
  unfold enrichLocation
  rw [hla, hlo]
  simp [ha, hb, hempty, hsp]

lemma process_location_eq_geocode (env : Env) (r : RouteRec) (la lo : ℚ)
    (hla : r.start_lat = some la) (hlo : r.start_lon = some lo)
    (ha : la ≠ 0) (hb : lo ≠ 0) (hempty : r.start_location = "")
    (hnone : find_closest_start_point la lo env.startPoints 250 = none) :
    (process_route_async env r).start_location = env.geocode la lo := by
  unfold process_route_async
  rw [enrichThumbnail_start_location]
  unfold enrichLocation
  rw [hla, hlo]
  simp only [ha, hb, hempty, hnone, ne_eq, not_false_eq_true, and_self, if_true]
  split_ifs with hg
  · rw [hempty, hg]
  · rfl

/-- Claim C5: the start-point matcher returns the candidate of minimum
great-circle distance to the query exactly when that minimum distance is
at most `max_distance_meters`, and returns none otherwise (in particular
for an empty candidate set); the enrichment pipeline invokes it with a
threshold of 250 meters. -/
theorem find_closest_start_point_spec (lat lon : ℚ) (cs : List StartPoint)
    (maxd : ℝ) :
    (∀ sp, find_closest_start_point lat lon cs maxd = some sp →
        sp ∈ cs ∧
          calculate_distance_meters lat lon sp.latitude sp.longitude ≤ maxd ∧
          ∀ q ∈ cs,
            calculate_distance_meters lat lon sp.latitude sp.longitude ≤
              calculate_distance_meters lat lon q.latitude q.longitude) ∧
      (find_closest_start_point lat lon cs maxd = none ↔
        ∀ q ∈ cs,
          maxd < calculate_distance_meters lat lon q.latitude q.longitude) ∧
      ∀ (env : Env) (r : RouteRec) (la lo : ℚ) (sp : StartPoint),
        r.start_lat = some la → r.start_lon = some lo → la ≠ 0 → lo ≠ 0 →
        r.start_location = "" →
        find_closest_start_point la lo env.startPoints 250 = some sp →
        (process_route_async env r).start_location = sp.name := by
  refine ⟨fun sp h => find_closest_eq_some lat lon cs maxd sp h,
    find_closest_eq_none_iff lat lon cs maxd,
    fun env r la lo sp hla hlo ha hb hempty hsp =>
      process_location_eq_matched env r la lo sp hla hlo ha hb hempty hsp⟩

theorem find_closest_start_point_spec_witness :
    find_closest_start_point 0 0 [] 250 = none :=
  (find_closest_start_point_spec 0 0 [] 250).2.1.mpr (by simp)

/-- Claim C8 (amended): for a persisted route whose `start_lat` and
`start_lon` are non-null and nonzero (the code tests Python truthiness, so
a zero coordinate is skipped) and whose `start_location` is empty, the
enrichment stage sets `start_location` to the name of the closest
`StartPoint` when one lies within 250 meters, otherwise to the reverse
geocoder result for that coordinate. -/
theorem process_route_async_sets_start_location (env : Env) (r : RouteRec)
    (la lo : ℚ)
    (hla : r.start_lat = some la) (hlo : r.start_lon = some lo)
    (ha : la ≠ 0) (hb : lo ≠ 0) (hempty : r.start_location = "") :
    ((∃ q ∈ env.startPoints,
        calculate_distance_meters la lo q.latitude q.longitude ≤ 250) →
      ∃ sp ∈ env.startPoints,
        calculate_distance_meters la lo sp.latitude sp.longitude ≤ 250 ∧
          (∀ q ∈ env.startPoints,
            calculate_distance_meters la lo sp.latitude sp.longitude ≤
              calculate_distance_meters la lo q.latitude q.longitude) ∧
          (process_route_async env r).start_location = sp.name) ∧
      ((∀ q ∈ env.startPoints,
          ¬ calculate_distance_meters la lo q.latitude q.longitude ≤ 250) →
        (process_route_async env r).start_location = env.geocode la lo) := by
  constructor
  · rintro ⟨q, hq, hdq⟩
    rcases h : find_closest_start_point la lo env.startPoints 250 with _ | sp
    · rw [find_closest_eq_none_iff] at h
      exact absurd hdq (not_le.mpr (h q hq))
    · obtain ⟨hmem, hle, hmin⟩ :=
        find_closest_eq_some la lo env.startPoints 250 sp h
      exact ⟨sp, hmem, hle, hmin,
        process_location_eq_matched env r la lo sp hla hlo ha hb hempty h⟩
  · intro hall
    have hnone : find_closest_start_point la lo env.startPoints 250 = none :=
      (find_closest_eq_none_iff la lo env.startPoints 250).mpr
        fun q hq => not_le.mp (hall q hq)
    exact process_location_eq_geocode env r la lo hla hlo ha hb hempty hnone

def geoEnv : Env :=
  { startPoints := []
    geocode := fun _ _ => "Null Island"
    render := fun _ => none }

def zeroLatRoute : RouteRec :=
  { name := "Equator Route"
    distance_km := 0
    elevation_gain := 0
    start_lat := some 0
    start_lon := some 1
    start_location := ""
    route_coordinates := []
    thumbnail_image := none }

/-- Claim C8 as stated is false on the code: this route has non-null
`start_lat` and `start_lon` and an empty `start_location`, there is no
`StartPoint` at all (so the claim says the geocoder result must be
written), yet the enrichment stage leaves `start_location` empty because
`if route.start_lat` is false for latitude 0.0. -/
theorem process_route_async_zero_lat_counterexample :
    zeroLatRoute.start_lat ≠ none ∧ zeroLatRoute.start_lon ≠ none ∧
      zeroLatRoute.start_location = "" ∧ geoEnv.startPoints = [] ∧
      geoEnv.geocode 0 1 = "Null Island" ∧
      (process_route_async geoEnv zeroLatRoute).start_location = "" := by
  refine ⟨by decide, by decide, rfl, rfl, rfl, ?_⟩
  rfl

def geoEnv2 : Env :=
  { startPoints := []
    geocode := fun _ _ => "Somewhere"
    render := fun _ => none }

def plainRoute : RouteRec :=
  { name := "Plain Route"
    distance_km := 0
    elevation_gain := 0
    start_lat := some 1
    start_lon := some 2
    start_location := ""
    route_coordinates := []
    thumbnail_image := none }

theorem process_route_async_sets_start_location_witness :
    (process_route_async geoEnv2 plainRoute).start_location = "Somewhere" := by
  have h :=
    (process_route_async_sets_start_location geoEnv2 plainRoute 1 2 rfl rfl
      (by norm_num) (by norm_num) rfl).2 (by simp [geoEnv2])
  exact h

/- ## ReverseGeocoder (`get_location_name`, `routes/utils.py` lines 72-102)

The HTTP call (`requests.get` with 5 s timeout) is abstracted as its
observable outcome: either the request raised, or a response with a status
code and (when the body parses as JSON) the Nominatim payload — an
optional `address` object and an optional `display_name`.  A body that is
not valid JSON makes `response.json()` raise, which the enclosing
`except` turns into the coordinate fallback. -/

structure NominatimAddress where
  road : Option String
  city : Option String
  town : Option String
  village : Option String
  state : Option String
deriving Repr, DecidableEq

structure NominatimJson where
  address : Option NominatimAddress
  display_name : Option String
deriving Repr, DecidableEq

inductive HttpOutcome where
  | exn
  | ok (status : Nat) (json : Option NominatimJson)
deriving Repr, DecidableEq

/-- Truncating integer division of numerator by denominator: the floor of a
NON-NEGATIVE rational (only ever applied to absolute values here). -/
def floorNN (q : ℚ) : ℤ :=
  q.num / (q.den : ℤ)

/-- Round-half-even of a non-negative rational, as Python float formatting
rounds. -/
def halfEvenRound (x : ℚ) : ℤ :=
  let f := floorNN x
  let r := x - (f : ℚ)
  if r < 1 / 2 then f
  else if 1 / 2 < r then f + 1
  else if f % 2 = 0 then f else f + 1

def pad4 (n : ℕ) : String :=
  let s := toString n
  ⟨List.replicate (4 - s.length) '0'⟩ ++ s

/-- The Python format `"{v:.4f}"`: the value to 4 decimal places. -/
def fmt4 (q : ℚ) : String :=
  let n := (halfEvenRound (|q| * 10000)).toNat
  (if q < 0 then "-" else "") ++ toString (n / 10000) ++ "." ++ pad4 (n % 10000)

/-- The coordinate fallback string of `get_location_name`: latitude and
longitude each formatted to 4 decimal places, joined by a comma and a
space. -/
def format_coordinate (lat lon : ℚ) : String :=
  fmt4 lat ++ ", " ++ fmt4 lon

def emptyAddress : NominatimAddress :=
  ⟨none, none, none, none, none⟩

def get_location_name (resp : HttpOutcome) (lat lon : ℚ) : String :=
  match resp with
  | .exn => format_coordinate lat lon
  | .ok status jsonOpt =>
      if status = 200 then
        match jsonOpt with
        | none => format_coordinate lat lon
        | some data =>
            let address := data.address.getD emptyAddress
            let parts : List String :=
              (if strTruthy address.road then [address.road.getD ""] else []) ++
                (if strTruthy address.city then [address.city.getD ""]
                 else if strTruthy address.town then [address.town.getD ""]
                 else if strTruthy address.village then [address.village.getD ""]
                 else []) ++
                (if strTruthy address.state then [address.state.getD ""] else [])
            if parts ≠ [] then String.intercalate ", " parts
            else data.display_name.getD ""
      else format_coordinate lat lon

/-- Every way the service call can fail: the request raised, a non-200
status, or a body that is not valid JSON. -/
def geocodeFailed (resp : HttpOutcome) : Prop :=
  resp = .exn ∨
    ∃ status json, resp = .ok status json ∧ (status ≠ 200 ∨ json = none)

/-- Claim C4: `get_location_name` never raises; whenever the service call
fails in any way (exception, non-200 status, non-JSON body) it returns the
coordinate fallback, the string holding both inputs formatted to 4
decimal places. -/
theorem get_location_name_degrades (resp : HttpOutcome) (lat lon : ℚ)
    (h : geocodeFailed resp) :
    get_location_name resp lat lon = format_coordinate lat lon ∧
      format_coordinate lat lon = fmt4 lat ++ ", " ++ fmt4 lon := by
  refine ⟨?_, rfl⟩
  rcases h with rfl | ⟨status, json, rfl, hbad⟩
  · rfl
  · unfold get_location_name
    rcases hbad with hs | rfl
    · simp [hs]
    · by_cases h200 : status = 200 <;> simp [h200]

section

attribute [local semireducible] Rat.mul Rat.sub Rat.add Rat.inv

theorem get_location_name_degrades_witness :
    get_location_name .exn (mkRat 515074 10000) (mkRat (-1278) 10000) =
      "51.5074, -0.1278" := by
  have h :=
    get_location_name_degrades .exn (mkRat 515074 10000) (mkRat (-1278) 10000)
      (Or.inl rfl)
  rw [h.1]
  decide

end

/- ## Route name resolution (eager and deferred ingestion)

`create_route_from_gpx` (`routes/services.py` line 43) and
`process_route_deferred` (`routes/tasks.py` line 80) both compute
`name or gpx_data["name"] or file_name.replace(".gpx", "")`. -/

/-- Python `a or b` on strings: `b` when `a` is empty, else `a`. -/
def pyOrS (a b : String) : String :=
  if a = "" then b else a

/-- Python `s.replace(old, new)` for a non-empty `old`: every non-overlapping
occurrence replaced left to right (fuel-indexed structural recursion; the
fuel `s.length` is always sufficient). -/
def pyReplaceAux (old new : List Char) : Nat → List Char → List Char
  | 0, s => s
  | _ + 1, [] => []
  | n + 1, c :: rest =>
      if old.isPrefixOf (c :: rest) ∧ old ≠ [] then
        new ++ pyReplaceAux old new n ((c :: rest).drop old.length)
      else c :: pyReplaceAux old new n rest

def pyReplace (s old new : String) : String :=
  ⟨pyReplaceAux old.data new.data s.data.length s.data⟩

def create_route_from_gpx_name (name : Option String) (gpxName : String)
    (fileName : String) : String :=
  pyOrS (name.getD "") (pyOrS gpxName (pyReplace fileName ".gpx" ""))

def process_route_deferred_name (route_name : Option String)
    (gpxName : String) (file_name : String) : String :=
  pyOrS (route_name.getD "") (pyOrS gpxName (pyReplace file_name ".gpx" ""))

/-- Follows the spec wording (not the code): the uploaded filename with its
`.gpx` extension stripped.  Upload validation accepts the extension case
insensitively, hence the case-insensitive suffix test. -/
def spec_filename_without_extension (s : String) : String :=
  if (".gpx".data).isSuffixOf (s.data.map Char.toLower) then
    ⟨s.data.take (s.data.length - 4)⟩
  else s

/-- Claim C7 as stated is false on the code: with no override name and an
empty GPX name, the file "Ride.GPX" (a legal upload: the extension check
is case-insensitive) yields the persisted name "Ride.GPX", not the
extension-stripped "Ride" — `replace(".gpx", "")` is case-sensitive and
touches every occurrence, not the extension. -/
theorem route_name_extension_counterexample :
    create_route_from_gpx_name none "" "Ride.GPX" = "Ride.GPX" ∧
      spec_filename_without_extension "Ride.GPX" = "Ride" ∧
      create_route_from_gpx_name none "" "Ride.GPX" ≠
        spec_filename_without_extension "Ride.GPX" := by
  refine ⟨by decide, by decide, by decide⟩

/-- Claim C7 (amended): on both ingestion paths (eager and deferred) the
persisted name is the caller override when non-empty, else the GPX name
when non-empty, else the filename with every occurrence of the literal,
case-sensitive substring ".gpx" removed. -/
theorem route_name_resolution (name : Option String)
    (gpxName fileName : String) :
    create_route_from_gpx_name name gpxName fileName =
        process_route_deferred_name name gpxName fileName ∧
      (∀ n, name = some n → n ≠ "" →
        create_route_from_gpx_name name gpxName fileName = n) ∧
      (name.getD "" = "" → gpxName ≠ "" →
        create_route_from_gpx_name name gpxName fileName = gpxName) ∧
      (name.getD "" = "" → gpxName = "" →
        create_route_from_gpx_name name gpxName fileName =
          pyReplace fileName ".gpx" "") := by
  refine ⟨rfl, ?_, ?_, ?_⟩
  · rintro n rfl hn
    simp [create_route_from_gpx_name, pyOrS, hn]
  · intro h1 h2
    simp [create_route_from_gpx_name, pyOrS, h1, h2]
  · intro h1 h2
    simp [create_route_from_gpx_name, pyOrS, h1, h2]

theorem route_name_resolution_witness :
    create_route_from_gpx_name (some "Custom Route Name") "Sample Track"
      "test_route.gpx" = "Custom Route Name" :=
  (route_name_resolution (some "Custom Route Name") "Sample Track"
    "test_route.gpx").2.1 "Custom Route Name" rfl (by decide)

/- ## MapRenderer (`generate_static_map_image` and
`_generate_simple_thumbnail`, `routes/utils.py` lines 105-250)

The two I/O-dependent outcomes are abstracted: `primary` is the Playwright
screenshot bytes (`none` when anything in the primary path raised —
a failed import, browser failure, ... ), `fallback` is the matplotlib
result of `_generate_simple_thumbnail` (`none` when it raised and
returned None).  A screenshot of at most 5000 bytes is rejected
(`len(screenshot_bytes) > 5000` must hold) and the fallback runs. -/

def generate_static_map_image (primary fallback : Option (List Nat))
    (points : List (ℚ × ℚ)) : Option (List Nat) :=
  if points = [] then none
  else
    match primary with
    | some shot => if shot.length > 5000 then some shot else fallback
    | none => fallback

def primaryFails (primary : Option (List Nat)) : Prop :=
  primary = none ∨ ∃ shot, primary = some shot ∧ shot.length ≤ 5000

/-- Claim C9: the thumbnail renderer returns none, rather than raising,
exactly when the point sequence is empty (in which case the result does
not depend on either rendering subsystem) or when both the primary
headless-browser path and the fallback canvas path fail; an undersized
primary screenshot counts as a primary failure and triggers the
fallback. -/
theorem generate_static_map_image_spec (primary fallback : Option (List Nat))
    (points : List (ℚ × ℚ)) :
    (generate_static_map_image primary fallback points = none ↔
        points = [] ∨ (primaryFails primary ∧ fallback = none)) ∧
      (∀ p2 f2, generate_static_map_image primary fallback [] =
        generate_static_map_image p2 f2 []) ∧
      (∀ shot, points ≠ [] → shot.length ≤ 5000 →
        generate_static_map_image (some shot) fallback points =
          generate_static_map_image none fallback points) := by
  refine ⟨?_, by intro p2 f2; simp [generate_static_map_image], ?_⟩
  · unfold generate_static_map_image primaryFails
    by_cases hp : points = []
    · simp [hp]
    · rw [if_neg hp]
      rcases primary with _ | shot
      · simp [hp]
      · by_cases hlen : shot.length > 5000
        · simp [hp, hlen, show ¬ shot.length ≤ 5000 by omega]
        · simp [hp, hlen, show shot.length ≤ 5000 by omega]
  · intro shot hp hlen
    unfold generate_static_map_image
    rw [if_neg hp, if_neg hp]
    simp [show ¬ shot.length > 5000 by omega]

theorem generate_static_map_image_spec_witness :
    generate_static_map_image (some [1, 2, 3]) none [((1 : ℚ), (2 : ℚ))] =
      generate_static_map_image none none [((1 : ℚ), (2 : ℚ))] :=
  (generate_static_map_image_spec (some [1, 2, 3]) none
    [((1 : ℚ), (2 : ℚ))]).2.2 [1, 2, 3] (by decide) (by decide)

/- ## Tag name normalization (`Tag.normalize_name` and `Tag.save`,
`routes/models.py` lines 18-47)

`normalize_name` is `re.sub(r"\s+", " ", name.strip()).title()` guarded by
`if not name: return ""`.  The character-level model covers the ASCII
range (the title-casing of a basic latin letter is its upper case letter;
a letter is "cased" exactly when it is a basic latin letter), matching
Python semantics on ASCII input. -/

/-- Whitespace characters (the ASCII part of the Python class `\s` and of
`str.strip`): space, tab, newline, carriage return, vertical tab, form
feed. -/
def isWsC (c : Char) : Bool :=
  decide (c.toNat = 32 ∨ c.toNat = 9 ∨ c.toNat = 10 ∨ c.toNat = 13 ∨
    c.toNat = 11 ∨ c.toNat = 12)

/-- Cased (letter) characters of the ASCII range. -/
def isAlphaC (c : Char) : Bool :=
  decide ((65 ≤ c.toNat ∧ c.toNat ≤ 90) ∨ (97 ≤ c.toNat ∧ c.toNat ≤ 122))

/-- ASCII upper-casing of a character. -/
def upC (c : Char) : Char :=
  if 97 ≤ c.toNat ∧ c.toNat ≤ 122 then Char.ofNat (c.toNat - 32) else c

/-- ASCII lower-casing of a character. -/
def lowC (c : Char) : Char :=
  if 65 ≤ c.toNat ∧ c.toNat ≤ 90 then Char.ofNat (c.toNat + 32) else c

lemma char_toNat_ofNat (n : Nat) (h : n < 55296) :
    (Char.ofNat n).toNat = n := by
  have hv : n.isValidChar := Or.inl h
  rw [Char.ofNat, dif_pos hv]
  simp [Char.ofNatAux, Char.toNat, UInt32.toNat]

lemma upC_toNat (c : Char) (h : 97 ≤ c.toNat ∧ c.toNat ≤ 122) :
    (upC c).toNat = c.toNat - 32 := by
  rw [upC, if_pos h, char_toNat_ofNat]
  omega

lemma lowC_toNat (c : Char) (h : 65 ≤ c.toNat ∧ c.toNat ≤ 90) :
    (lowC c).toNat = c.toNat + 32 := by
  rw [lowC, if_pos h, char_toNat_ofNat]
  omega

lemma upC_idem (c : Char) : upC (upC c) = upC c := by
  by_cases h : 97 ≤ c.toNat ∧ c.toNat ≤ 122
  · have ht := upC_toNat c h
    rw [upC, upC, if_pos h]
    rw [show upC c = Char.ofNat (c.toNat - 32) from by rw [upC, if_pos h]]
      at ht
    rw [if_neg]
    omega
  · have hc : upC c = c := by rw [upC, if_neg h]
    simp [hc]

lemma lowC_idem (c : Char) : lowC (lowC c) = lowC c := by
  by_cases h : 65 ≤ c.toNat ∧ c.toNat ≤ 90
  · have ht := lowC_toNat c h
    rw [lowC, lowC, if_pos h]
    rw [show lowC c = Char.ofNat (c.toNat + 32) from by rw [lowC, if_pos h]]
      at ht
    rw [if_neg]
    omega
  · have hc : lowC c = c := by rw [lowC, if_neg h]
    simp [hc]

lemma isAlphaC_upC (c : Char) : isAlphaC (upC c) = isAlphaC c := by
  by_cases h : 97 ≤ c.toNat ∧ c.toNat ≤ 122
  · have ht := upC_toNat c h
    simp only [isAlphaC, decide_eq_decide, ht]
    omega
  · rw [upC, if_neg h]

lemma isAlphaC_lowC (c : Char) : isAlphaC (lowC c) = isAlphaC c := by
  by_cases h : 65 ≤ c.toNat ∧ c.toNat ≤ 90
  · have ht := lowC_toNat c h
    simp only [isAlphaC, decide_eq_decide, ht]
    omega
  · rw [lowC, if_neg h]

lemma isWsC_upC (c : Char) : isWsC (upC c) = isWsC c := by
  by_cases h : 97 ≤ c.toNat ∧ c.toNat ≤ 122
  · have ht := upC_toNat c h
    simp only [isWsC, decide_eq_decide, ht]
    omega
  · rw [upC, if_neg h]

lemma isWsC_lowC (c : Char) : isWsC (lowC c) = isWsC c := by
  by_cases h : 65 ≤ c.toNat ∧ c.toNat ≤ 90
  · have ht := lowC_toNat c h
    simp only [isWsC, decide_eq_decide, ht]
    omega
  · rw [lowC, if_neg h]

lemma isAlphaC_not_ws (c : Char) (h : isAlphaC c = true) :
    isWsC c = false := by
  simp only [isAlphaC, decide_eq_true_eq] at h
  simp only [isWsC, decide_eq_false_iff_not]
  omega

/-- Python `str.strip()`: drop whitespace from both ends. -/
def stripL (l : List Char) : List Char :=
  ((l.dropWhile isWsC).reverse.dropWhile isWsC).reverse

/-- Python `re.sub(r"\s+", " ", ·)`: every maximal whitespace run becomes a
single space. -/
def collapseWs : List Char → List Char
  | [] => []
  | [c] => if isWsC c then [' '] else [c]
  | c1 :: c2 :: rest =>
      if isWsC c1 && isWsC c2 then collapseWs (c2 :: rest)
      else (if isWsC c1 then ' ' else c1) :: collapseWs (c2 :: rest)

/-- One character of Python `str.title()`: a cased character is
upper-cased after a non-cased position and lower-cased otherwise; other
characters pass through. -/
def titleMap (prev : Bool) (c : Char) : Char :=
  if isAlphaC c then (if prev then lowC c else upC c) else c

/-- Python `str.title()`, threading whether the previous character was
cased. -/
def titleL : Bool → List Char → List Char
  | _, [] => []
  | prev, c :: rest => titleMap prev c :: titleL (isAlphaC c) rest

lemma isAlphaC_titleMap (prev : Bool) (c : Char) :
    isAlphaC (titleMap prev c) = isAlphaC c := by
  unfold titleMap
  split_ifs with h1 h2
  · rw [isAlphaC_lowC]
  · rw [isAlphaC_upC]
  · rfl

lemma isWsC_titleMap (prev : Bool) (c : Char) :
    isWsC (titleMap prev c) = isWsC c := by
  unfold titleMap
  split_ifs with h1 h2
  · rw [isWsC_lowC]
  · rw [isWsC_upC]
  · rfl

lemma titleMap_ws (prev : Bool) (c : Char) (h : isWsC c = true) :
    titleMap prev c = c := by
  unfold titleMap
  rw [if_neg]
  intro ha
  rw [isAlphaC_not_ws c ha] at h
  exact Bool.false_ne_true h

lemma titleMap_idem (prev : Bool) (c : Char) :
    titleMap prev (titleMap prev c) = titleMap prev c := by
  by_cases h : isAlphaC c = true
  · cases prev
    · have hin : titleMap false c = upC c := by
        simp [titleMap, h]
      have h2 : isAlphaC (upC c) = true := by
        rw [isAlphaC_upC]
        exact h
      rw [hin]
      simp [titleMap, h2, upC_idem]
    · have hin : titleMap true c = lowC c := by
        simp [titleMap, h]
      have h2 : isAlphaC (lowC c) = true := by
        rw [isAlphaC_lowC]
        exact h
      rw [hin]
      simp [titleMap, h2, lowC_idem]
  · have hc : titleMap prev c = c := by
      rw [titleMap, if_neg h]
    simp [hc]

lemma titleL_idem (l : List Char) : ∀ prev : Bool,
    titleL prev (titleL prev l) = titleL prev l := by
  induction l with
  | nil => intro prev; rfl
  | cons c rest ih =>
      intro prev
      show titleL prev (titleMap prev c :: titleL (isAlphaC c) rest) =
        titleMap prev c :: titleL (isAlphaC c) rest
      rw [titleL, titleMap_idem, isAlphaC_titleMap, ih (isAlphaC c)]

lemma isWsC_space : isWsC ' ' = true := by decide

lemma collapseWs_ne_nil (l : List Char) (h : l ≠ []) : collapseWs l ≠ [] := by
  induction l with
  | nil => exact absurd rfl h
  | cons c rest ih =>
      cases rest with
      | nil =>
          unfold collapseWs
          split_ifs <;> simp
      | cons c2 rest2 =>
          unfold collapseWs
          split_ifs with h1 <;> first | exact ih (by simp) | simp

lemma collapseWs_head? (l : List Char) : ∀ c : Char,
    (collapseWs (c :: l)).head? = some (if isWsC c then ' ' else c) := by
  induction l with
  | nil =>
      intro c
      unfold collapseWs
      by_cases h : isWsC c = true
      · rw [if_pos h, if_pos h]
        rfl
      · rw [if_neg h, if_neg h]
        rfl
  | cons c2 rest ih =>
      intro c
      by_cases hb : (isWsC c && isWsC c2) = true
      · rw [collapseWs, if_pos hb, ih c2]
        obtain ⟨hc, hc2⟩ : isWsC c = true ∧ isWsC c2 = true := by
          simpa [Bool.and_eq_true] using hb
        simp [hc, hc2]
      · rw [collapseWs, if_neg hb]
        rfl

lemma collapseWs_length (l : List Char) : (collapseWs l).length ≤ l.length := by
  induction l with
  | nil => simp [collapseWs]
  | cons c rest ih =>
      cases rest with
      | nil =>
          unfold collapseWs
          split_ifs <;> simp
      | cons c2 rest2 =>
          by_cases hb : (isWsC c && isWsC c2) = true
          · rw [collapseWs, if_pos hb]
            calc (collapseWs (c2 :: rest2)).length ≤ (c2 :: rest2).length := ih
              _ ≤ (c :: c2 :: rest2).length := by simp
          · rw [collapseWs, if_neg hb]
            simp only [List.length_cons] at ih ⊢
            omega

lemma collapseWs_idem (l : List Char) :
    collapseWs (collapseWs l) = collapseWs l := by
  induction l with
  | nil => rfl
  | cons c rest ih =>
      cases rest with
      | nil =>
          by_cases h : isWsC c = true
          · have e1 : collapseWs [c] = [' '] := by rw [collapseWs, if_pos h]
            rw [e1, collapseWs, if_pos isWsC_space]
          · have e1 : collapseWs [c] = [c] := by rw [collapseWs, if_neg h]
            rw [e1, collapseWs, if_neg h]
      | cons c2 rest2 =>
          by_cases h1 : isWsC c = true ∧ isWsC c2 = true
          · have he : collapseWs (c :: c2 :: rest2) = collapseWs (c2 :: rest2) := by
              rw [collapseWs, if_pos (by simp [h1.1, h1.2])]
            rw [he, ih]
          · have hneg : ¬ (isWsC c && isWsC c2) = true := by
              simpa [Bool.and_eq_true] using h1
            have he : collapseWs (c :: c2 :: rest2) =
                (if isWsC c then ' ' else c) :: collapseWs (c2 :: rest2) := by
              rw [collapseWs, if_neg hneg]
            rw [he]
            obtain ⟨d, t, hdt⟩ : ∃ d t, collapseWs (c2 :: rest2) = d :: t := by
              rcases hc : collapseWs (c2 :: rest2) with _ | ⟨d, t⟩
              · exact absurd hc (collapseWs_ne_nil _ (by simp))
              · exact ⟨d, t, rfl⟩
            rw [hdt]
            have hd : d = if isWsC c2 then ' ' else c2 := by
              have hh := collapseWs_head? rest2 c2
              rw [hdt] at hh
              simpa using hh
            have hih : collapseWs (d :: t) = d :: t := by
              rw [← hdt, ih]
            rw [collapseWs, if_neg ?hnb, hih]
            case hnb =>
              by_cases hc : isWsC c = true
              · have hc2 : ¬ isWsC c2 = true := fun hh => h1 ⟨hc, hh⟩
                simp [hd, hc, hc2, Bool.and_eq_true]
              · simp [hc, Bool.and_eq_true]
            congr 1
            by_cases hc : isWsC c = true
            · simp [hc, isWsC_space]
            · simp [hc]

lemma collapseWs_getLast? (l : List Char) (c : Char)
    (hl : l.getLast? = some c) (hc : isWsC c = false) :
    (collapseWs l).getLast? = some c := by
  induction l with
  | nil => simp at hl
  | cons a rest ih =>
      cases rest with
      | nil =>
          obtain rfl : a = c := by simpa using hl
          rw [collapseWs, if_neg (by simp [hc])]
          simp
      | cons c2 rest2 =>
          rw [List.getLast?_cons_cons] at hl
          by_cases hb : (isWsC a && isWsC c2) = true
          · rw [collapseWs, if_pos hb]
            exact ih hl
          · rw [collapseWs, if_neg hb]
            obtain ⟨d, t, hdt⟩ : ∃ d t, collapseWs (c2 :: rest2) = d :: t := by
              rcases hcc : collapseWs (c2 :: rest2) with _ | ⟨d, t⟩
              · exact absurd hcc (collapseWs_ne_nil _ (by simp))
              · exact ⟨d, t, rfl⟩
            rw [hdt, List.getLast?_cons_cons, ← hdt]
            exact ih hl

lemma collapseWs_titleL (l : List Char) : ∀ prev : Bool,
    collapseWs l = l → collapseWs (titleL prev l) = titleL prev l := by
  induction l with
  | nil => intro prev _; rfl
  | cons c rest ih =>
      intro prev h
      cases rest with
      | nil =>
          show collapseWs [titleMap prev c] = [titleMap prev c]
          by_cases hc : isWsC c = true
          · have hsp : c = ' ' := by
              have := h
              rw [collapseWs, if_pos hc] at this
              simpa using this.symm
            subst hsp
            rw [titleMap_ws prev ' ' isWsC_space, collapseWs,
              if_pos isWsC_space]
          · have hm : isWsC (titleMap prev c) = false := by
              rw [isWsC_titleMap]
              exact Bool.not_eq_true _ |>.mp hc
            rw [collapseWs, if_neg (by simp [hm])]
      | cons c2 rest2 =>
          by_cases h1 : isWsC c = true ∧ isWsC c2 = true
          · exfalso
            rw [collapseWs, if_pos (by simp [h1.1, h1.2])] at h
            have hlen := collapseWs_length (c2 :: rest2)
            rw [h] at hlen
            simp only [List.length_cons] at hlen
            omega
          · have hneg : ¬ (isWsC c && isWsC c2) = true := by
              simpa [Bool.and_eq_true] using h1
            rw [collapseWs, if_neg hneg] at h
            obtain ⟨hhead, htail⟩ :
                (if isWsC c then ' ' else c) = c ∧
                  collapseWs (c2 :: rest2) = c2 :: rest2 := by
              constructor
              · exact (List.cons.injEq _ _ _ _ ▸ h).1
              · exact (List.cons.injEq _ _ _ _ ▸ h).2
            show collapseWs
                (titleMap prev c :: titleL (isAlphaC c) (c2 :: rest2)) = _
            have hexp : titleL (isAlphaC c) (c2 :: rest2) =
                titleMap (isAlphaC c) c2 ::
                  titleL (isAlphaC c2) rest2 := rfl
            rw [hexp]
            have hnegm : ¬ (isWsC (titleMap prev c) &&
                isWsC (titleMap (isAlphaC c) c2)) = true := by
              rw [isWsC_titleMap, isWsC_titleMap]
              exact hneg
            rw [collapseWs, if_neg hnegm, ← hexp, ih (isAlphaC c) htail]
            congr 1
            by_cases hc : isWsC c = true
            · have hsp : c = ' ' := by
                rw [if_pos hc] at hhead
                exact hhead.symm
              subst hsp
              rw [titleMap_ws prev ' ' isWsC_space]
              rw [if_pos isWsC_space]
            · have hm : isWsC (titleMap prev c) = false := by
                rw [isWsC_titleMap]
                exact Bool.not_eq_true _ |>.mp hc
              rw [if_neg (by simp [hm])]

lemma getLast?_dropWhile (p : Char → Bool) (l : List Char)
    (h : l.dropWhile p ≠ []) : (l.dropWhile p).getLast? = l.getLast? := by
  induction l with
  | nil => simp at h
  | cons a rest ih =>
      by_cases ha : p a
      · rw [List.dropWhile_cons_of_pos ha] at h ⊢
        rw [ih h]
        have hrest : rest ≠ [] := by
          intro hr
          rw [hr] at h
          simp at h
        cases rest with
        | nil => exact absurd rfl hrest
        | cons b t => rw [List.getLast?_cons_cons]
      · rw [List.dropWhile_cons_of_neg ha]

lemma stripL_eq_self (l : List Char)
    (hh : ∀ c, l.head? = some c → isWsC c = false)
    (hl : ∀ c, l.getLast? = some c → isWsC c = false) :
    stripL l = l := by
  unfold stripL
  have h1 : l.dropWhile isWsC = l := by
    cases l with
    | nil => rfl
    | cons a rest =>
        rw [List.dropWhile_cons_of_neg]
        simp [hh a rfl]
  rw [h1]
  have h2 : l.reverse.dropWhile isWsC = l.reverse := by
    cases hr : l.reverse with
    | nil => rfl
    | cons a rest =>
        have ha : l.getLast? = some a := by
          rw [List.getLast?_eq_head?_reverse, hr]
          rfl
        rw [List.dropWhile_cons_of_neg]
        simp [hl a ha]
  rw [h2, List.reverse_reverse]

lemma stripL_head?_not_ws (l : List Char) (c : Char)
    (h : (stripL l).head? = some c) : isWsC c = false := by
  unfold stripL at h
  rw [List.head?_reverse] at h
  have hne : (l.dropWhile isWsC).reverse.dropWhile isWsC ≠ [] := by
    intro h0
    rw [h0] at h
    simp at h
  rw [getLast?_dropWhile _ _ hne, List.getLast?_reverse] at h
  have hd := List.head?_dropWhile_not isWsC l
  rw [h] at hd
  exact hd

lemma stripL_getLast?_not_ws (l : List Char) (c : Char)
    (h : (stripL l).getLast? = some c) : isWsC c = false := by
  unfold stripL at h
  rw [List.getLast?_reverse] at h
  have hd := List.head?_dropWhile_not isWsC (l.dropWhile isWsC).reverse
  rw [h] at hd
  exact hd

lemma titleL_getLast? (l : List Char) : ∀ (prev : Bool) (c : Char),
    l.getLast? = some c →
    ∃ b : Bool, (titleL prev l).getLast? = some (titleMap b c) := by
  induction l with
  | nil => intro prev c h; simp at h
  | cons a rest ih =>
      intro prev c h
      cases rest with
      | nil =>
          obtain rfl : a = c := by simpa using h
          exact ⟨prev, rfl⟩
      | cons b2 t =>
          rw [List.getLast?_cons_cons] at h
          obtain ⟨b, hb⟩ := ih (isAlphaC a) c h
          refine ⟨b, ?_⟩
          show (titleMap prev a :: titleL (isAlphaC a) (b2 :: t)).getLast? = _
          have hexp : titleL (isAlphaC a) (b2 :: t) =
              titleMap (isAlphaC a) b2 :: titleL (isAlphaC b2) t := rfl
          rw [hexp, List.getLast?_cons_cons, ← hexp]
          exact hb

/-- The full normalization of `Tag.normalize_name` at character-list level:
strip, collapse whitespace runs, then title-case. -/
def normChars (l : List Char) : List Char :=
  titleL false (collapseWs (stripL l))

lemma normChars_head?_not_ws (l : List Char) (c : Char)
    (h : (normChars l).head? = some c) : isWsC c = false := by
  unfold normChars at h
  rcases hsl : stripL l with _ | ⟨b, t0⟩
  · rw [hsl] at h
    simp [collapseWs, titleL] at h
  · rw [hsl] at h
    have hhead := collapseWs_head? t0 b
    have hb : isWsC b = false := stripL_head?_not_ws l b (by rw [hsl]; rfl)
    rw [if_neg (by simp [hb])] at hhead
    rcases hcc : collapseWs (b :: t0) with _ | ⟨d, t⟩
    · exact absurd hcc (collapseWs_ne_nil _ (by simp))
    · rw [hcc] at hhead h
      have hdb : d = b := by simpa using hhead
      have hc : c = titleMap false d := by
        have hexp : titleL false (d :: t) =
            titleMap false d :: titleL (isAlphaC d) t := rfl
        rw [hexp] at h
        simpa using h.symm
      rw [hc, isWsC_titleMap, hdb]
      exact hb

lemma normChars_getLast?_not_ws (l : List Char) (c : Char)
    (h : (normChars l).getLast? = some c) : isWsC c = false := by
  unfold normChars at h
  rcases hsl : stripL l with _ | ⟨b, t⟩
  · rw [hsl] at h
    simp [collapseWs, titleL] at h
  · rcases hz : (b :: t).getLast? with _ | z
    · simp [List.getLast?_eq_none_iff] at hz
    · have hzws : isWsC z = false :=
        stripL_getLast?_not_ws l z (by rw [hsl]; exact hz)
      have hcl : (collapseWs (b :: t)).getLast? = some z :=
        collapseWs_getLast? (b :: t) z hz hzws
      obtain ⟨bb, hbb⟩ := titleL_getLast? (collapseWs (b :: t)) false z hcl
      rw [hsl, hbb] at h
      obtain rfl : titleMap bb z = c := by simpa using h
      rw [isWsC_titleMap]
      exact hzws

lemma normChars_idem (l : List Char) : normChars (normChars l) = normChars l := by
  have hs : stripL (normChars l) = normChars l :=
    stripL_eq_self (normChars l)
      (fun c hc => normChars_head?_not_ws l c hc)
      (fun c hc => normChars_getLast?_not_ws l c hc)
  have hc2 : collapseWs (collapseWs (stripL l)) = collapseWs (stripL l) :=
    collapseWs_idem (stripL l)
  have hc : collapseWs (normChars l) = normChars l :=
    collapseWs_titleL (collapseWs (stripL l)) false hc2
  have ht : titleL false (normChars l) = normChars l :=
    titleL_idem (collapseWs (stripL l)) false
  show titleL false (collapseWs (stripL (normChars l))) = normChars l
  rw [hs, hc, ht]

namespace Tag

/-- `Tag.normalize_name` (`routes/models.py` lines 18-41):
`re.sub(r"\s+", " ", name.strip()).title()` after the `if not name:
return ""` guard, modelled at ASCII character level. -/
def normalize_name (name : String) : String :=
  if name = "" then "" else ⟨normChars name.data⟩

/-- `Tag.save` (`routes/models.py` lines 43-47) restricted to its effect on
the `name` field: `if self.name: self.name = self.normalize_name(self.name)`. -/
def save_name (name : String) : String :=
  if name ≠ "" then normalize_name name else name

end Tag

lemma normalize_name_idem (t : String) :
    Tag.normalize_name (Tag.normalize_name t) = Tag.normalize_name t := by
  by_cases h : t = ""
  · simp [Tag.normalize_name, h]
  · have h1 : Tag.normalize_name t = ⟨normChars t.data⟩ := by
      rw [Tag.normalize_name, if_neg h]
    rw [h1, Tag.normalize_name]
    by_cases h2 : (⟨normChars t.data⟩ : String) = ""
    · rw [if_pos h2, h2]
    · rw [if_neg h2]
      show (⟨normChars (normChars t.data)⟩ : String) = ⟨normChars t.data⟩
      rw [normChars_idem]

/-- Claim C10: `Tag.normalize_name` is idempotent, so saving a tag whose
name is already normalized, and re-saving any saved tag, leaves the name
unchanged. -/
theorem tag_normalize_name_idempotent (s : String) :
    Tag.normalize_name (Tag.normalize_name s) = Tag.normalize_name s ∧
      Tag.save_name (Tag.normalize_name s) = Tag.normalize_name s ∧
      Tag.save_name (Tag.save_name s) = Tag.save_name s := by
  refine ⟨normalize_name_idem s, ?_, ?_⟩
  · rw [Tag.save_name]
    split_ifs with hh
    · exact normalize_name_idem s
    · rfl
  · by_cases h1 : s = ""
    · simp [Tag.save_name, h1]
    · have hs : Tag.save_name s = Tag.normalize_name s := by
        rw [Tag.save_name, if_pos h1]
      rw [hs, Tag.save_name]
      split_ifs with h2
      · exact normalize_name_idem s
      · rfl
